import Mathlib

/-!
Shallow embedding of the aggregation pipeline of the
`ai-coding-agents-industry-analysis` repository (three Python scripts:
`scripts/export_web_data.py`, `scripts/generate_summary_stats.py`,
`scripts/plot_industry_adoption.py`).

Tabular pandas data is embedded as Lean lists of records.  A DataFrame's
row order is the list order; `groupby(...).size().unstack(fill_value=0)`
becomes a sorted, deduplicated key list together with a counting function;
`cumsum` becomes a running-sum function on lists; Python's stable
`list.sort(key=..., reverse=True)` and pandas' key sorts become
`List.insertionSort` (a stable sort) with the corresponding relation.
Python exceptions are embedded as an error type `PyError`, and functions
that can raise return `Except PyError _`.
-/

namespace AIAdoption

/-- A calendar month (year, month), the value of a pandas `Period("M")`
as produced by `.dt.to_period("M")`. -/
structure Month where
  year : Nat
  month : Nat
deriving DecidableEq, Repr

/-- Chronological (lexicographic) order on months, the order pandas uses
when sorting a `PeriodIndex`. -/
def Month.le (a b : Month) : Prop :=
  a.year < b.year ∨ (a.year = b.year ∧ a.month ≤ b.month)

instance : DecidableRel Month.le := fun a b => by
  unfold Month.le
  exact inferInstance

instance : IsTotal Month Month.le := by
  constructor
  intro a b
  unfold Month.le
  omega

instance : IsTrans Month Month.le := by
  constructor
  intro a b c hab hbc
  unfold Month.le at *
  omega

/-- Zero-padding of a decimal string, as in the `str()` rendering of a
pandas `Period` ("YYYY-MM"). -/
def padTo (width : Nat) (s : String) : String :=
  String.mk (List.replicate (width - s.length) '0') ++ s

/-- `str(period)` for a monthly period: `"YYYY-MM"`. -/
def Month.toStr (m : Month) : String :=
  padTo 4 (toString m.year) ++ "-" ++ padTo 2 (toString m.month)

/-- A timezone-aware timestamp (UTC), at the resolution the pipeline
observes: the aggregation only ever looks at the calendar year and month
(via `.dt.to_period("M")`), so finer fields than the day are omitted. -/
structure Timestamp where
  year : Nat
  month : Nat
  day : Nat
deriving DecidableEq, Repr

/-- `.dt.to_period("M")`: the calendar month of a timestamp. -/
def Timestamp.to_period_M (t : Timestamp) : Month :=
  { year := t.year, month := t.month }

/-- A row of the first-use dataset after column normalization:
`nwo` (repository identifier) and `first_use_date`. -/
structure FirstUseRow where
  nwo : String
  first_use_date : Timestamp
deriving DecidableEq, Repr

/-- A row of the predictions dataset restricted to the columns the
pipeline keeps: `nwo` and `predicted_naics`. -/
structure PredRow where
  nwo : String
  predicted_naics : String
deriving DecidableEq, Repr

/-- A row of the inner join of the two datasets on `nwo`. -/
structure MergedRow where
  nwo : String
  first_use_date : Timestamp
  predicted_naics : String
deriving DecidableEq, Repr

/-- `merged["year_month"]`, i.e. `merged["first_use_date"].dt.to_period("M")`. -/
def MergedRow.year_month (r : MergedRow) : Month :=
  r.first_use_date.to_period_M

/-- The column normalization shared by `load_first_use` /
`load_and_process`: rename a legacy `repo_nwo` column to `nwo` and a
legacy `first_claude_commit` column to `first_use_date`, each rename
guarded by a membership test on the column list. -/
def normalize_columns (cols : List String) : List String :=
  let cols1 :=
    if "repo_nwo" ∈ cols then
      cols.map (fun c => if c = "repo_nwo" then "nwo" else c)
    else cols
  if "first_claude_commit" ∈ cols1 then
    cols1.map (fun c => if c = "first_claude_commit" then "first_use_date" else c)
  else cols1

/-- `first_use.merge(predictions[["nwo", "predicted_naics"]], on="nwo",
how="inner")`: every (first-use row, prediction row) pair agreeing on
`nwo` produces one output row, left rows in order. -/
def merge (first_use : List FirstUseRow) (predictions : List PredRow) : List MergedRow :=
  first_use.flatMap fun f =>
    (predictions.filter fun p => p.nwo == f.nwo).map fun p =>
      { nwo := f.nwo, first_use_date := f.first_use_date,
        predicted_naics := p.predicted_naics }

/-- Lexicographic comparison of character lists by Unicode code point,
the order Python uses on strings (and hence pandas on column labels). -/
def charsLe : List Char → List Char → Bool
  | [], _ => true
  | _ :: _, [] => false
  | a :: as, b :: bs =>
    if a.toNat < b.toNat then true
    else if b.toNat < a.toNat then false
    else charsLe as bs

/-- Python's `<=` on strings: code-point lexicographic order. -/
def strLe (a b : String) : Prop :=
  charsLe a.data b.data = true

instance : DecidableRel strLe := fun a b => by
  unfold strLe
  exact inferInstance

theorem charsLe_total : ∀ as bs : List Char, charsLe as bs = true ∨ charsLe bs as = true
  | [], _ => Or.inl rfl
  | _ :: _, [] => Or.inr rfl
  | a :: as, b :: bs => by
    simp only [charsLe]
    rcases Nat.lt_trichotomy a.toNat b.toNat with h | h | h
    · left
      simp [h]
    · have h1 : ¬a.toNat < b.toNat := by omega
      have h2 : ¬b.toNat < a.toNat := by omega
      simp only [if_neg h1, if_neg h2]
      exact charsLe_total as bs
    · right
      simp [h]

theorem charsLe_trans : ∀ as bs cs : List Char,
    charsLe as bs = true → charsLe bs cs = true → charsLe as cs = true
  | [], _, _, _, _ => rfl
  | _ :: _, [], _, h, _ => by simp [charsLe] at h
  | _ :: _, _ :: _, [], _, h => by simp [charsLe] at h
  | a :: as, b :: bs, c :: cs, h1, h2 => by
    simp only [charsLe] at h1 h2 ⊢
    split_ifs at h1 h2 ⊢ with hab hba hbc hcb hac hca <;>
      first
        | rfl
        | omega
        | (exact charsLe_trans as bs cs h1 h2)

instance : IsTotal String strLe :=
  ⟨fun a b => charsLe_total a.data b.data⟩

instance : IsTrans String strLe :=
  ⟨fun a b c => charsLe_trans a.data b.data c.data⟩

/-- The sorted index of the pivot table
`df.groupby(["year_month", "predicted_naics"]).size().unstack(fill_value=0)`:
the distinct months occurring in `df`, in ascending order. -/
def month_index (df : List MergedRow) : List Month :=
  ((df.map MergedRow.year_month).dedup).insertionSort Month.le

/-- The columns of the same pivot table: the distinct industry codes
occurring in `df`, in ascending (string) order.  An industry that occurs
in no row of `df` is not a column. -/
def industry_columns (df : List MergedRow) : List String :=
  ((df.map MergedRow.predicted_naics).dedup).insertionSort strLe

/-- An entry of the pivot table: the number of joined rows in month `m`
with industry `c` (`fill_value=0` makes absent groups count 0). -/
def monthly_count (df : List MergedRow) (m : Month) (c : String) : Nat :=
  (df.filter fun r => r.year_month == m && r.predicted_naics == c).length

/-- The pivot table produced by `aggregate_by_month_industry` (and the
identical inline computation in `generate_cumulative_data`). -/
structure Pivot where
  index : List Month
  columns : List String
  entry : Month → String → Nat

/-- `df.groupby(["year_month", "predicted_naics"]).size().unstack(fill_value=0)`
followed by `.sort_index()`. -/
def aggregate_by_month_industry (df : List MergedRow) : Pivot :=
  { index := month_index df
    columns := industry_columns df
    entry := monthly_count df }

/-- Running cumulative sum with accumulator, used to embed
`DataFrame.cumsum` / `Series.cumsum` down a column. -/
def cumsumFrom (acc : Nat) : List Nat → List Nat
  | [] => []
  | x :: xs => (acc + x) :: cumsumFrom (acc + x) xs

/-- `cumsum` of a column: element `i` of the result is the sum of
elements `0..i` of the input. -/
def cumsum (xs : List Nat) : List Nat :=
  cumsumFrom 0 xs

/-- `NAICS_DESCRIPTIONS` of `export_web_data.py`. -/
def NAICS_DESCRIPTIONS : List (String × String) :=
  [("11", "Agriculture"), ("21", "Mining"), ("22", "Utilities"),
   ("23", "Construction"), ("31-33", "Manufacturing"), ("42", "Wholesale Trade"),
   ("44-45", "Retail Trade"), ("48-49", "Transportation"), ("51", "Information"),
   ("52", "Finance"), ("53", "Real Estate"), ("54", "Professional Services"),
   ("55", "Management"), ("56", "Admin Services"), ("61", "Education"),
   ("62", "Healthcare"), ("71", "Entertainment"), ("72", "Accommodation"),
   ("81", "Other Services"), ("92", "Public Admin")]

/-- `INDUSTRY_COLORS` of `export_web_data.py`. -/
def INDUSTRY_COLORS : List (String × String) :=
  [("54", "#2E86AB"), ("51", "#A23B72"), ("52", "#F18F01"), ("61", "#C73E1D"),
   ("71", "#6A0572"), ("56", "#95C623"), ("81", "#5C8001"), ("48-49", "#7B2D8E"),
   ("44-45", "#00A6A6"), ("62", "#E36397"), ("31-33", "#8B4513"), ("92", "#4A7C59"),
   ("11", "#DAA520"), ("72", "#FF6B6B"), ("53", "#20B2AA"), ("22", "#4169E1"),
   ("23", "#CD853F"), ("42", "#708090"), ("21", "#2F4F4F")]

/-- One entry of the `industries` array in the JSON structure produced by
`generate_cumulative_data`. -/
structure IndustrySeries where
  code : String
  name : String
  color : String
  values : List Nat
  monthly : List Nat
deriving DecidableEq, Repr

/-- The JSON structure produced by `generate_cumulative_data`. -/
structure CumulativeData where
  months : List String
  industries : List IndustrySeries
  total_repos : Nat
deriving DecidableEq, Repr

/-- Embedded Python exceptions relevant to the pipeline. -/
inductive PyError where
  | fileNotFound (msg : String)
  | indexError (msg : String)
  | typeError (msg : String)
deriving DecidableEq, Repr

/-- The sort key `lambda x: x["values"][-1]` of
`industries.sort(key=..., reverse=True)`.  In every call the `values`
list is non-empty (the table is non-empty), so the 0 default is never
consulted there. -/
def final_value (s : IndustrySeries) : Nat :=
  s.values.getLastD 0

/-- The body of the `for col in cumulative.columns` loop of
`generate_cumulative_data`: one `industries` entry, holding the column's
cumulative series (`cumulative[col].tolist()`) and its monthly series
(`monthly[col].tolist()`), over the sorted month index of the pivot
table. -/
def industry_series (df : List MergedRow) (col : String) : IndustrySeries :=
  { code := col
    name := col ++ ": " ++ ((NAICS_DESCRIPTIONS.lookup col).getD col)
    color := (INDUSTRY_COLORS.lookup col).getD "#666666"
    values := cumsum ((month_index df).map fun m => monthly_count df m col)
    monthly := (month_index df).map fun m => monthly_count df m col }

/-- `generate_cumulative_data` of `export_web_data.py`: join, pivot to
month-by-industry counts (the same `groupby/unstack/sort_index/cumsum`
expressions as `aggregate_by_month_industry`, inlined in the source),
convert each industry column to a series record, sort the records
descending by final cumulative value (Python's stable
`sort(key=..., reverse=True)`), and read `total_repos` off the last row
of the cumulative table (`int(cumulative.iloc[-1].sum())`), which raises
`IndexError` when the joined table is empty. -/
def generate_cumulative_data (first_use : List FirstUseRow) (predictions : List PredRow) :
    Except PyError CumulativeData :=
  let df := merge first_use predictions
  let industries := (industry_columns df).map (industry_series df)
  let sorted := industries.insertionSort fun a b => final_value b ≤ final_value a
  if df.isEmpty then
    Except.error (PyError.indexError "single positional indexer is out-of-bounds")
  else
    Except.ok
      { months := (month_index df).map Month.toStr
        industries := sorted
        total_repos := ((industry_columns df).map fun col =>
          (industry_series df col).values.getLastD 0).sum }

/-- One row of the table produced by `generate_monthly_adoption`. -/
structure MonthlyRow where
  month : String
  new_repos : Nat
  cumulative_repos : Nat
deriving DecidableEq, Repr

/-- `generate_monthly_adoption` of `generate_summary_stats.py`: join,
count joined rows per month (`groupby("month").size()`, months ascending),
and cumulate the counts into `cumulative_repos`. -/
def generate_monthly_adoption (first_use : List FirstUseRow) (predictions : List PredRow) :
    List MonthlyRow :=
  let merged := merge first_use predictions
  let months := month_index merged
  let new_repos := months.map fun m => (merged.filter fun r => r.year_month == m).length
  let cumulative := cumsum new_repos
  (months.zip (new_repos.zip cumulative)).map fun p =>
    { month := Month.toStr p.1, new_repos := p.2.1, cumulative_repos := p.2.2 }

/-- `data.sum()` for one column of the pivot table: the total count of an
industry over all months, i.e. the number of joined rows with that
industry. -/
def industry_total (df : List MergedRow) (c : String) : Nat :=
  (df.filter fun r => r.predicted_naics == c).length

/-- `industry_totals.head(top_n).index.tolist()` in `plot_stacked_area`:
the industry columns sorted descending by total count, truncated to the
first `top_n`. -/
def top_industries (df : List MergedRow) (top_n : Nat) : List String :=
  (((aggregate_by_month_industry df).columns).insertionSort
    (fun a b => industry_total df b ≤ industry_total df a)).take top_n

/-- `other_cols = [c for c in data.columns if c not in top_industries]`. -/
def other_columns (df : List MergedRow) (top_n : Nat) : List String :=
  ((aggregate_by_month_industry df).columns).filter fun c =>
    decide (c ∉ top_industries df top_n)

/-- The data series plotted by `plot_stacked_area`: one `(column, values
per month)` pair per top industry, plus — when any industries are left
over — a single `"Other"` pair whose value at each month is
`data[other_cols].sum(axis=1)` at that month. -/
def plot_stacked_area_series (df : List MergedRow) (top_n : Nat) : List (String × List Nat) :=
  let piv := aggregate_by_month_industry df
  let top := top_industries df top_n
  let others := other_columns df top_n
  let base := top.map fun c => (c, piv.index.map fun m => piv.entry m c)
  if others.isEmpty then base
  else base ++ [("Other", piv.index.map fun m => (others.map fun c => piv.entry m c).sum)]

/-- The two input files of one agent; `none` embeds a missing file
(reading it raises `FileNotFoundError`). -/
structure AgentData where
  first_use : Option (List FirstUseRow)
  predictions : Option (List PredRow)

/-- `process_agent` of `plot_industry_adoption.py`: load both files
(raising `FileNotFoundError` when one is absent), join, aggregate and
plot.  When the join is empty the pivot table has no columns and
`plot_data.plot.area` raises `TypeError("no numeric data to plot")`;
otherwise the merged table is returned (as the Python function does). -/
def process_agent (d : AgentData) : Except PyError (List MergedRow) :=
  match d.first_use with
  | none => Except.error (PyError.fileNotFound "first_use.parquet")
  | some fu =>
    match d.predictions with
    | none => Except.error (PyError.fileNotFound "predictions.parquet")
    | some preds =>
      let merged := merge fu preds
      if merged.isEmpty then Except.error (PyError.typeError "no numeric data to plot")
      else Except.ok merged

/-- The driver loop of `plot_industry_adoption.main`: process each agent
in turn inside `try: ... except FileNotFoundError: ...` — only
`FileNotFoundError` is caught (and logged); any other exception
propagates out of the loop and aborts the remaining agents.  The result
is the list of successfully processed agents, or the uncaught error. -/
def plot_main (data : String → AgentData) : List String → Except PyError (List String)
  | [] => Except.ok []
  | a :: rest =>
    match process_agent (data a) with
    | Except.ok _ => (plot_main data rest).map (fun l => a :: l)
    | Except.error (PyError.fileNotFound _) => plot_main data rest
    | Except.error e => Except.error e

/-- The body of one iteration of `export_web_data.main`'s loop:
loading raises `FileNotFoundError` on a missing file, then
`generate_cumulative_data` runs. -/
def export_process_agent (d : AgentData) : Except PyError CumulativeData :=
  match d.first_use with
  | none => Except.error (PyError.fileNotFound "first_use.parquet")
  | some fu =>
    match d.predictions with
    | none => Except.error (PyError.fileNotFound "predictions.parquet")
    | some preds => generate_cumulative_data fu preds

/-- The driver loop of `export_web_data.main`: the whole per-agent body
sits inside `try: ... except Exception as e: ...`, so every failure is
caught and logged and the loop always continues; each agent yields either
its exported data or `none` (failure logged, no file written). -/
def export_main (data : String → AgentData) : List String → List (String × Option CumulativeData)
  | [] => []
  | a :: rest => (a, (export_process_agent (data a)).toOption) :: export_main data rest

/-! ### Generic list lemmas -/

theorem sum_map_add {β : Type} (f g : β → Nat) : ∀ l : List β,
    (l.map fun k => f k + g k).sum = (l.map f).sum + (l.map g).sum
  | [] => rfl
  | k :: l => by
    simp only [List.map_cons, List.sum_cons, sum_map_add f g l]
    omega

theorem sum_map_indicator {β : Type} [DecidableEq β] (b : β) : ∀ ks : List β,
    (ks.map fun k => if b = k then 1 else 0).sum = ks.count b
  | [] => rfl
  | k :: ks => by
    have ih := sum_map_indicator b ks
    rw [List.map_cons, List.sum_cons, ih, List.count_cons]
    by_cases h : b = k
    · simp [h, Nat.add_comm]
    · simp [h]
      exact fun hh => h hh.symm

/-- Counting a list by a family of pairwise-distinct key values that
covers every element partitions its length. -/
theorem sum_length_filter_key {α β : Type} [DecidableEq β] (key : α → β) :
    ∀ (df : List α) (ks : List β), ks.Nodup → (∀ r ∈ df, key r ∈ ks) →
      (ks.map fun k => (df.filter fun r => key r == k).length).sum = df.length
  | [], ks, _, _ => by simp
  | r :: df, ks, hnd, hall => by
    have ih := sum_length_filter_key key df ks hnd fun x hx => hall x (List.mem_cons_of_mem _ hx)
    have hsplit : ∀ k : β, ((r :: df).filter fun x => key x == k).length
        = (if key r = k then 1 else 0) + (df.filter fun x => key x == k).length := by
      intro k
      rw [List.filter_cons]
      by_cases h : key r = k
      · simp [h]
        omega
      · simp [h]
    calc (ks.map fun k => ((r :: df).filter fun x => key x == k).length).sum
        = (ks.map fun k =>
            (if key r = k then 1 else 0) + (df.filter fun x => key x == k).length).sum :=
          congrArg List.sum (List.map_congr_left fun k _ => hsplit k)
      _ = (ks.map fun k => if key r = k then 1 else 0).sum
            + (ks.map fun k => (df.filter fun x => key x == k).length).sum :=
          sum_map_add _ _ ks
      _ = ks.count (key r) + df.length := by rw [sum_map_indicator, ih]
      _ = 1 + df.length := by
          rw [List.count_eq_one_of_mem hnd (hall r (List.mem_cons_self r df))]
      _ = (r :: df).length := by simp [Nat.add_comm]

theorem zip3_map_third {α β γ : Type} : ∀ (ms : List α) (xs : List β) (ys : List γ),
    ms.length = xs.length → xs.length = ys.length →
    ((ms.zip (xs.zip ys)).map fun p => p.2.2) = ys
  | [], [], [], _, _ => rfl
  | [], _ :: _, _, h1, _ => by simp at h1
  | _ :: _, [], _, h1, _ => by simp at h1
  | _ :: _, _ :: _, [], _, h2 => by simp at h2
  | _ :: ms, _ :: xs, _ :: ys, h1, h2 => by
    simp only [List.zip_cons_cons, List.map_cons]
    rw [zip3_map_third ms xs ys (by simpa using h1) (by simpa using h2)]

theorem getD_map_lt {α β : Type} (f : α → β) (l : List α) (i : Nat) (da : α) (db : β)
    (h : i < l.length) : (l.map f).getD i db = f (l.getD i da) := by
  rw [List.getD_eq_getElem?_getD, List.getD_eq_getElem?_getD, List.getElem?_map]
  rw [List.getElem?_eq_getElem h]
  simp

/-- A disjoint case split doubles a filtered length into two summands. -/
theorem length_filter_or_disjoint {α : Type} (p q : α → Bool) :
    ∀ l : List α, (∀ a, p a = true → q a = false) →
      (l.filter fun a => p a || q a).length = (l.filter p).length + (l.filter q).length
  | [], _ => rfl
  | a :: l, hdisj => by
    have ih := length_filter_or_disjoint p q l hdisj
    by_cases hp : p a = true
    · have hq := hdisj a hp
      simp [List.filter_cons, hp, hq, ih]
      omega
    · by_cases hq : q a = true
      · simp [List.filter_cons, hp, hq, ih]
        omega
      · simp [List.filter_cons, hp, hq, ih]

/-! ### Lemmas about `cumsum` -/

theorem cumsumFrom_length : ∀ (xs : List Nat) (acc : Nat),
    (cumsumFrom acc xs).length = xs.length
  | [], _ => rfl
  | x :: xs, acc => by
    simp only [cumsumFrom, List.length_cons, cumsumFrom_length xs]

theorem cumsumFrom_mem_le : ∀ (xs : List Nat) (acc y : Nat), y ∈ cumsumFrom acc xs → acc ≤ y
  | [], _, _, hy => absurd hy (List.not_mem_nil _)
  | x :: xs, acc, y, hy => by
    rcases List.mem_cons.mp hy with h | h
    · omega
    · have := cumsumFrom_mem_le xs (acc + x) y h
      omega

theorem cumsumFrom_sorted : ∀ (xs : List Nat) (acc : Nat),
    List.Sorted (· ≤ ·) (cumsumFrom acc xs)
  | [], _ => List.sorted_nil
  | x :: xs, acc => by
    rw [cumsumFrom]
    exact List.sorted_cons.mpr
      ⟨fun y hy => cumsumFrom_mem_le xs (acc + x) y hy, cumsumFrom_sorted xs (acc + x)⟩

theorem cumsumFrom_getLastD : ∀ (xs : List Nat) (acc : Nat),
    (cumsumFrom acc xs).getLastD acc = acc + xs.sum
  | [], acc => by simp [cumsumFrom]
  | x :: xs, acc => by
    rw [cumsumFrom, List.getLastD_cons, cumsumFrom_getLastD xs (acc + x), List.sum_cons]
    omega

theorem cumsum_length (xs : List Nat) : (cumsum xs).length = xs.length :=
  cumsumFrom_length xs 0

theorem cumsum_sorted (xs : List Nat) : List.Sorted (· ≤ ·) (cumsum xs) :=
  cumsumFrom_sorted xs 0

theorem cumsum_getLastD (xs : List Nat) : (cumsum xs).getLastD 0 = xs.sum := by
  have h := cumsumFrom_getLastD xs 0
  simpa [cumsum] using h

/-! ### Lemmas about the pivot index and columns -/

theorem mem_month_index {df : List MergedRow} {r : MergedRow} (h : r ∈ df) :
    r.year_month ∈ month_index df := by
  unfold month_index
  rw [List.mem_insertionSort]
  exact List.mem_dedup.mpr (List.mem_map_of_mem _ h)

theorem month_index_nodup (df : List MergedRow) : (month_index df).Nodup := by
  unfold month_index
  exact ((List.perm_insertionSort _ _).nodup_iff).mpr (List.nodup_dedup _)

theorem mem_industry_columns {df : List MergedRow} {r : MergedRow} (h : r ∈ df) :
    r.predicted_naics ∈ industry_columns df := by
  unfold industry_columns
  rw [List.mem_insertionSort]
  exact List.mem_dedup.mpr (List.mem_map_of_mem _ h)

theorem industry_columns_nodup (df : List MergedRow) : (industry_columns df).Nodup := by
  unfold industry_columns
  exact ((List.perm_insertionSort _ _).nodup_iff).mpr (List.nodup_dedup _)

theorem mem_industry_columns_iff {df : List MergedRow} {c : String} :
    c ∈ industry_columns df ↔ c ∈ df.map MergedRow.predicted_naics := by
  unfold industry_columns
  rw [List.mem_insertionSort, List.mem_dedup]

/-! ### Counting sums over the pivot -/

theorem sum_new_repos (df : List MergedRow) :
    ((month_index df).map fun m => (df.filter fun r => r.year_month == m).length).sum
      = df.length :=
  sum_length_filter_key MergedRow.year_month df (month_index df) (month_index_nodup df)
    fun _ hr => mem_month_index hr

theorem sum_monthly_count (df : List MergedRow) (col : String) :
    ((month_index df).map fun m => monthly_count df m col).sum
      = (df.filter fun r => r.predicted_naics == col).length := by
  have key := sum_length_filter_key MergedRow.year_month
    (df.filter fun r => r.predicted_naics == col) (month_index df) (month_index_nodup df)
    fun r hr => mem_month_index (List.mem_of_mem_filter hr)
  rw [← key]
  refine congrArg List.sum (List.map_congr_left fun m _ => ?_)
  unfold monthly_count
  rw [List.filter_filter]

theorem sum_industry_counts (df : List MergedRow) :
    ((industry_columns df).map fun c =>
        (df.filter fun r => r.predicted_naics == c).length).sum = df.length :=
  sum_length_filter_key MergedRow.predicted_naics df (industry_columns df)
    (industry_columns_nodup df) fun _ hr => mem_industry_columns hr

theorem sum_monthly_count_industries (df : List MergedRow) (m : Month) :
    ((industry_columns df).map fun c => monthly_count df m c).sum
      = (df.filter fun r => r.year_month == m).length := by
  have key := sum_length_filter_key MergedRow.predicted_naics
    (df.filter fun r => r.year_month == m) (industry_columns df) (industry_columns_nodup df)
    fun r hr => mem_industry_columns (List.mem_of_mem_filter hr)
  rw [← key]
  refine congrArg List.sum (List.map_congr_left fun c _ => ?_)
  unfold monthly_count
  rw [List.filter_filter]
  exact congrArg List.length (List.filter_congr fun r _ => Bool.and_comm _ _)

/-! ### Lemmas about `merge` -/

theorem merge_length (fu : List FirstUseRow) (pr : List PredRow) :
    (merge fu pr).length
      = (fu.map fun f => (pr.filter fun p => p.nwo == f.nwo).length).sum := by
  unfold merge
  rw [List.length_flatMap]
  refine congrArg List.sum (List.map_congr_left fun f _ => ?_)
  simp

/-- When the keys of `l` are pairwise distinct, at most one element
matches a given key value. -/
theorem filter_key_length_le_one {α β : Type} [DecidableEq β] (key : α → β) :
    ∀ l : List α, (l.map key).Nodup → ∀ b : β,
      (l.filter fun a => key a == b).length ≤ 1
  | [], _, _ => by simp
  | a :: l, hnd, b => by
    rw [List.map_cons, List.nodup_cons] at hnd
    rw [List.filter_cons]
    by_cases h : key a = b
    · have hnone : (l.filter fun x => key x == b).length = 0 := by
        rw [List.length_eq_zero, List.filter_eq_nil_iff]
        intro x hx
        simp only [beq_iff_eq]
        intro hxb
        exact hnd.1 ((h.trans hxb.symm) ▸ List.mem_map_of_mem key hx)
      simp [h, hnone]
    · have ih := filter_key_length_le_one key l hnd.2 b
      simp only [beq_iff_eq, h]
      simpa using ih

/-- Summing per-key match counts over pairwise-distinct keys counts the
elements whose key occurs in the key list. -/
theorem sum_counts_eq_filter_mem {α β : Type} [DecidableEq β] (key : α → β) (l : List α) :
    ∀ ks : List β, ks.Nodup →
      (ks.map fun k => (l.filter fun a => key a == k).length).sum
        = (l.filter fun a => decide (key a ∈ ks)).length
  | [], _ => by simp
  | k :: ks, hnd => by
    rw [List.nodup_cons] at hnd
    have ih := sum_counts_eq_filter_mem key l ks hnd.2
    rw [List.map_cons, List.sum_cons, ih]
    have hdisj : ∀ a, (key a == k) = true → decide (key a ∈ ks) = false := by
      intro a ha
      rw [beq_iff_eq] at ha
      simp [ha, hnd.1]
    have hsplit := length_filter_or_disjoint (fun a => key a == k)
      (fun a => decide (key a ∈ ks)) l hdisj
    rw [← hsplit]
    refine congrArg List.length (List.filter_congr fun a _ => ?_)
    by_cases hk : key a = k
    · simp [List.mem_cons, hk]
    · simp [List.mem_cons, hk]

theorem merge_length_le_left (fu : List FirstUseRow) (pr : List PredRow)
    (h2 : (pr.map PredRow.nwo).Nodup) : (merge fu pr).length ≤ fu.length := by
  rw [merge_length]
  have hb : ∀ x ∈ fu.map fun f => (pr.filter fun p => p.nwo == f.nwo).length, x ≤ 1 := by
    intro x hx
    rcases List.mem_map.mp hx with ⟨f, _, rfl⟩
    exact filter_key_length_le_one PredRow.nwo pr h2 f.nwo
  have h := List.sum_le_card_nsmul _ 1 hb
  simpa using h

theorem merge_length_le_right (fu : List FirstUseRow) (pr : List PredRow)
    (h1 : (fu.map FirstUseRow.nwo).Nodup) : (merge fu pr).length ≤ pr.length := by
  rw [merge_length]
  have hcomp : (fu.map fun f => (pr.filter fun p => p.nwo == f.nwo).length)
      = (fu.map FirstUseRow.nwo).map fun k => (pr.filter fun p => p.nwo == k).length := by
    rw [List.map_map]
    rfl
  rw [hcomp, sum_counts_eq_filter_mem PredRow.nwo pr _ h1]
  exact List.length_filter_le _ _

/-! ### Inversion of `generate_cumulative_data` -/

theorem month_index_ne_nil {df : List MergedRow} (h : df ≠ []) : month_index df ≠ [] := by
  cases df with
  | nil => exact absurd rfl h
  | cons r df =>
    intro hnil
    have hm := mem_month_index (List.mem_cons_self r df)
    rw [hnil] at hm
    exact List.not_mem_nil _ hm

theorem generate_cumulative_data_empty (fu : List FirstUseRow) (pr : List PredRow)
    (h : merge fu pr = []) :
    generate_cumulative_data fu pr =
      Except.error (PyError.indexError "single positional indexer is out-of-bounds") := by
  unfold generate_cumulative_data
  simp [h]

theorem generate_cumulative_data_ok (fu : List FirstUseRow) (pr : List PredRow)
    (h : merge fu pr ≠ []) :
    generate_cumulative_data fu pr = Except.ok
      { months := (month_index (merge fu pr)).map Month.toStr
        industries := ((industry_columns (merge fu pr)).map
            (industry_series (merge fu pr))).insertionSort
              fun a b => final_value b ≤ final_value a
        total_repos := ((industry_columns (merge fu pr)).map fun col =>
          (industry_series (merge fu pr) col).values.getLastD 0).sum } := by
  unfold generate_cumulative_data
  rw [if_neg (by simpa [List.isEmpty_iff] using h)]

theorem getLast?_eq_getLastD {l : List Nat} (h : l ≠ []) :
    l.getLast? = some (l.getLastD 0) := by
  cases hopt : l.getLast? with
  | none =>
    have hsome := List.getLast?_isSome.mpr h
    rw [hopt] at hsome
    exact absurd hsome (by simp)
  | some v => simp [List.getLastD_eq_getLast?, hopt]

/-! ### Lemmas about `normalize_columns` -/

theorem old_not_mem_map_rename (cols : List String) (old new : String) (hne : old ≠ new) :
    old ∉ cols.map fun c => if c = old then new else c := by
  intro hmem
  rcases List.mem_map.mp hmem with ⟨c, _, hc⟩
  by_cases h : c = old
  · rw [if_pos h] at hc
    exact hne hc.symm
  · rw [if_neg h] at hc
    exact h hc

theorem not_mem_map_rename {cols : List String} {x : String} (old new : String)
    (hx : x ∉ cols) (hne : x ≠ new) :
    x ∉ cols.map fun c => if c = old then new else c := by
  intro hmem
  rcases List.mem_map.mp hmem with ⟨c, hcmem, hc⟩
  by_cases h : c = old
  · rw [if_pos h] at hc
    exact hne hc.symm
  · rw [if_neg h] at hc
    exact hx (hc ▸ hcmem)

theorem repo_nwo_not_mem_normalize (cols : List String) :
    "repo_nwo" ∉ normalize_columns cols := by
  simp only [normalize_columns]
  split_ifs with h1 h2 h3
  · exact not_mem_map_rename "first_claude_commit" "first_use_date"
      (old_not_mem_map_rename cols "repo_nwo" "nwo" (by decide)) (by decide)
  · exact old_not_mem_map_rename cols "repo_nwo" "nwo" (by decide)
  · exact not_mem_map_rename "first_claude_commit" "first_use_date" h1 (by decide)
  · exact h1

theorem first_claude_commit_not_mem_normalize (cols : List String) :
    "first_claude_commit" ∉ normalize_columns cols := by
  simp only [normalize_columns]
  split_ifs with h1 h2 h3
  · exact old_not_mem_map_rename _ "first_claude_commit" "first_use_date" (by decide)
  · exact h2
  · exact old_not_mem_map_rename _ "first_claude_commit" "first_use_date" (by decide)
  · exact h3

theorem normalize_columns_of_not_mem {L : List String}
    (h1 : "repo_nwo" ∉ L) (h2 : "first_claude_commit" ∉ L) :
    normalize_columns L = L := by
  simp only [normalize_columns]
  rw [if_neg h1, if_neg h2]

/-! ### Partitioning the pivot columns into top-N and "Other" -/

theorem top_industries_nodup (df : List MergedRow) (top_n : Nat) :
    (top_industries df top_n).Nodup := by
  have hnd : (((aggregate_by_month_industry df).columns).insertionSort
      fun a b => industry_total df b ≤ industry_total df a).Nodup :=
    ((List.perm_insertionSort _ _).nodup_iff).mpr (industry_columns_nodup df)
  exact hnd.sublist (List.take_sublist _ _)

theorem top_industries_subset (df : List MergedRow) (top_n : Nat) :
    ∀ x ∈ top_industries df top_n, x ∈ industry_columns df := by
  intro x hx
  have hx' := List.take_subset _ _ hx
  exact (List.mem_insertionSort _).mp hx'

theorem sum_top_other (df : List MergedRow) (top_n : Nat) (f : String → Nat) :
    ((top_industries df top_n).map f).sum + ((other_columns df top_n).map f).sum
      = ((industry_columns df).map f).sum := by
  have hperm := List.filter_append_perm
    (fun c => decide (c ∈ top_industries df top_n)) (industry_columns df)
  have hothers : (industry_columns df).filter
      (fun c => !(decide (c ∈ top_industries df top_n))) = other_columns df top_n := by
    refine List.filter_congr fun c _ => ?_
    rw [decide_not]
  have htopperm : List.Perm
      ((industry_columns df).filter fun c => decide (c ∈ top_industries df top_n))
      (top_industries df top_n) := by
    refine (List.perm_ext_iff_of_nodup ((industry_columns_nodup df).filter _)
      (top_industries_nodup df top_n)).mpr ?_
    intro x
    simp only [List.mem_filter, decide_eq_true_eq]
    exact ⟨fun hx => hx.2, fun hx => ⟨top_industries_subset df top_n x hx, hx⟩⟩
  calc ((top_industries df top_n).map f).sum + ((other_columns df top_n).map f).sum
      = (((industry_columns df).filter fun c =>
            decide (c ∈ top_industries df top_n)).map f).sum
        + (((industry_columns df).filter fun c =>
            !(decide (c ∈ top_industries df top_n))).map f).sum := by
        rw [((htopperm.map f).sum_eq).symm, hothers]
    _ = ((((industry_columns df).filter fun c => decide (c ∈ top_industries df top_n))
          ++ ((industry_columns df).filter fun c =>
            !(decide (c ∈ top_industries df top_n)))).map f).sum := by
        rw [List.map_append, List.sum_append]
    _ = ((industry_columns df).map f).sum := (hperm.map f).sum_eq

/-! ### Concrete example inputs -/

/-- The spec's running example: first-use rows for repos A, B, C dated in
months 2024-01, 2024-01, 2024-02, plus a repo D that has no prediction
and is dropped by the inner join. -/
def exFU : List FirstUseRow :=
  [{ nwo := "A", first_use_date := { year := 2024, month := 1, day := 5 } },
   { nwo := "B", first_use_date := { year := 2024, month := 1, day := 20 } },
   { nwo := "C", first_use_date := { year := 2024, month := 2, day := 3 } },
   { nwo := "D", first_use_date := { year := 2024, month := 3, day := 9 } }]

/-- The spec's example predictions: A→"54", B→"54", C→"62"; none for D. -/
def exPR : List PredRow :=
  [{ nwo := "A", predicted_naics := "54" },
   { nwo := "B", predicted_naics := "54" },
   { nwo := "C", predicted_naics := "62" }]

/-- The JSON structure `generate_cumulative_data` produces on the example
input. -/
def exData : CumulativeData :=
  { months := ["2024-01", "2024-02"]
    industries :=
      [{ code := "54", name := "54: Professional Services", color := "#2E86AB",
         values := [2, 2], monthly := [2, 0] },
       { code := "62", name := "62: Healthcare", color := "#E36397",
         values := [0, 1], monthly := [0, 1] }]
    total_repos := 3 }

/-- Inputs on which `plot_industry_adoption`'s driver loop aborts: the
first agent's two files both exist but share no repository identifier, so
its merge is empty; the other agents' data is fine. -/
def exC5Data : String → AgentData := fun a =>
  if a = "claude" then
    { first_use := some [{ nwo := "A", first_use_date := { year := 2024, month := 1, day := 5 } }]
      predictions := some [{ nwo := "Z", predicted_naics := "54" }] }
  else
    { first_use := some [{ nwo := "A", first_use_date := { year := 2024, month := 1, day := 5 } }]
      predictions := some [{ nwo := "A", predicted_naics := "54" }] }

/-! ### The claims -/

/-- C3: for every pair of input tables whose repository identifiers are
unique within each input, the inner join on `nwo` produces at most
`min(|first-use rows|, |prediction rows|)` rows. -/
theorem C3_join_count_le_min (fu : List FirstUseRow) (pr : List PredRow)
    (h1 : (fu.map FirstUseRow.nwo).Nodup) (h2 : (pr.map PredRow.nwo).Nodup) :
    (merge fu pr).length ≤ min fu.length pr.length :=
  le_min (merge_length_le_left fu pr h2) (merge_length_le_right fu pr h1)

theorem C3_join_count_le_min_witness :
    (merge exFU exPR).length ≤ min exFU.length exPR.length :=
  C3_join_count_le_min exFU exPR (by decide) (by decide)

/-- C4: on the spec's concrete example (first-use rows A, B, C in months
2024-01, 2024-01, 2024-02, a repo D without prediction dropped by the
join, predictions A→"54", B→"54", C→"62"), `generate_cumulative_data`
produces exactly the structure with monthly counts 2 for "54" in
"2024-01" and 1 for "62" in "2024-02", cumulative values 2 for "54" and 1
for "62" at "2024-02", and `total_repos = 3`. -/
theorem C4_concrete_example :
    generate_cumulative_data exFU exPR = Except.ok exData := by
  rfl

/-- C6: the loader's column normalization (rename `repo_nwo` to `nwo` and
`first_claude_commit` to `first_use_date`) is idempotent: applying it
twice yields the same column list (hence the same set of column names) as
applying it once. -/
theorem C6_normalization_idempotent (cols : List String) :
    normalize_columns (normalize_columns cols) = normalize_columns cols :=
  normalize_columns_of_not_mem (repo_nwo_not_mem_normalize cols)
    (first_claude_commit_not_mem_normalize cols)

/-- C2: whenever `generate_cumulative_data` returns, the sum over all
industries of the final cumulative value (its `total_repos` field) equals
the row count of the inner join. -/
theorem C2_total_repos_eq_join_count (fu : List FirstUseRow) (pr : List PredRow)
    (data : CumulativeData) (h : generate_cumulative_data fu pr = Except.ok data) :
    data.total_repos = (merge fu pr).length := by
  by_cases hm : merge fu pr = []
  · rw [generate_cumulative_data_empty fu pr hm] at h
    exact Except.noConfusion h
  · rw [generate_cumulative_data_ok fu pr hm] at h
    injection h with h'
    subst h'
    show ((industry_columns (merge fu pr)).map fun col =>
        (industry_series (merge fu pr) col).values.getLastD 0).sum = (merge fu pr).length
    have hcols : ∀ col ∈ industry_columns (merge fu pr),
        (industry_series (merge fu pr) col).values.getLastD 0
          = ((merge fu pr).filter fun r => r.predicted_naics == col).length := by
      intro col _
      show (cumsum ((month_index (merge fu pr)).map fun m =>
          monthly_count (merge fu pr) m col)).getLastD 0 = _
      rw [cumsum_getLastD, sum_monthly_count]
    rw [List.map_congr_left hcols]
    exact sum_industry_counts (merge fu pr)

theorem C2_total_repos_eq_join_count_witness :
    exData.total_repos = (merge exFU exPR).length :=
  C2_total_repos_eq_join_count exFU exPR exData (by rfl)

/-- C8: the `industries` list produced by `generate_cumulative_data` is
ordered descending by final cumulative value (the last element of each
entry's `values` array): every earlier entry's final value is ≥ every
later entry's. -/
theorem C8_industries_sorted_descending (fu : List FirstUseRow) (pr : List PredRow)
    (data : CumulativeData) (h : generate_cumulative_data fu pr = Except.ok data) :
    data.industries.Pairwise fun a b => final_value b ≤ final_value a := by
  by_cases hm : merge fu pr = []
  · rw [generate_cumulative_data_empty fu pr hm] at h
    exact Except.noConfusion h
  · rw [generate_cumulative_data_ok fu pr hm] at h
    injection h with h'
    subst h'
    show List.Pairwise _ (((industry_columns (merge fu pr)).map
      (industry_series (merge fu pr))).insertionSort fun a b => final_value b ≤ final_value a)
    haveI : IsTotal IndustrySeries fun a b => final_value b ≤ final_value a :=
      ⟨fun a b => Nat.le_total (final_value b) (final_value a)⟩
    haveI : IsTrans IndustrySeries fun a b => final_value b ≤ final_value a :=
      ⟨fun _ _ _ hab hbc => le_trans hbc hab⟩
    exact List.sorted_insertionSort _ _

theorem C8_industries_sorted_descending_witness :
    exData.industries.Pairwise fun a b => final_value b ≤ final_value a :=
  C8_industries_sorted_descending exFU exPR exData (by rfl)

/-- C7: an industry code that occurs in zero joined records is not a
column of the aggregated month-by-industry table, and appears in no
`industries` entry of `generate_cumulative_data`'s output. -/
theorem C7_absent_industry_absent_from_output (fu : List FirstUseRow) (pr : List PredRow)
    (ind : String) (h : ind ∉ (merge fu pr).map MergedRow.predicted_naics) :
    ind ∉ (aggregate_by_month_industry (merge fu pr)).columns ∧
    ∀ data, generate_cumulative_data fu pr = Except.ok data →
      ∀ s ∈ data.industries, s.code ≠ ind := by
  have hcol : ind ∉ industry_columns (merge fu pr) := fun hmem =>
    h (mem_industry_columns_iff.mp hmem)
  refine ⟨hcol, ?_⟩
  intro data hok s hs
  by_cases hm : merge fu pr = []
  · rw [generate_cumulative_data_empty fu pr hm] at hok
    exact Except.noConfusion hok
  · rw [generate_cumulative_data_ok fu pr hm] at hok
    injection hok with h'
    subst h'
    replace hs : s ∈ ((industry_columns (merge fu pr)).map
        (industry_series (merge fu pr))).insertionSort
          (fun a b => final_value b ≤ final_value a) := hs
    rw [List.mem_insertionSort] at hs
    rcases List.mem_map.mp hs with ⟨col, hcolmem, rfl⟩
    intro hcode
    have hc : col = ind := hcode
    exact hcol (hc ▸ hcolmem)

theorem C7_absent_industry_absent_from_output_witness :
    "99" ∉ (aggregate_by_month_industry (merge exFU exPR)).columns ∧
    ∀ data, generate_cumulative_data exFU exPR = Except.ok data →
      ∀ s ∈ data.industries, s.code ≠ "99" :=
  C7_absent_industry_absent_from_output exFU exPR "99" (by decide)

/-- C10: `generate_cumulative_data` requires a non-empty join: on an
empty join it raises `IndexError` (last-row indexing on an empty table);
on a non-empty join it returns normally and every industry entry's
`values` and `monthly` arrays have the same length as `months`. -/
theorem C10_nonempty_join_precondition (fu : List FirstUseRow) (pr : List PredRow) :
    (merge fu pr = [] →
      generate_cumulative_data fu pr
        = Except.error (PyError.indexError "single positional indexer is out-of-bounds")) ∧
    (merge fu pr ≠ [] →
      ∃ data, generate_cumulative_data fu pr = Except.ok data ∧
        ∀ s ∈ data.industries,
          s.values.length = data.months.length ∧
          s.monthly.length = data.months.length) := by
  refine ⟨generate_cumulative_data_empty fu pr, ?_⟩
  intro hm
  refine ⟨_, generate_cumulative_data_ok fu pr hm, ?_⟩
  intro s hs
  replace hs : s ∈ ((industry_columns (merge fu pr)).map
      (industry_series (merge fu pr))).insertionSort
        (fun a b => final_value b ≤ final_value a) := hs
  rw [List.mem_insertionSort] at hs
  rcases List.mem_map.mp hs with ⟨col, _, rfl⟩
  constructor
  · show (cumsum ((month_index (merge fu pr)).map fun m =>
        monthly_count (merge fu pr) m col)).length
      = ((month_index (merge fu pr)).map Month.toStr).length
    rw [cumsum_length, List.length_map, List.length_map]
  · show ((month_index (merge fu pr)).map fun m =>
        monthly_count (merge fu pr) m col).length
      = ((month_index (merge fu pr)).map Month.toStr).length
    rw [List.length_map, List.length_map]

theorem C10_nonempty_join_precondition_witness :
    merge exFU exPR ≠ [] ∧
    ∃ data, generate_cumulative_data exFU exPR = Except.ok data ∧
      ∀ s ∈ data.industries,
        s.values.length = data.months.length ∧
        s.monthly.length = data.months.length :=
  ⟨by decide, (C10_nonempty_join_precondition exFU exPR).2 (by decide)⟩

/-- C1: the per-industry cumulative series (`values` in
`generate_cumulative_data`, `cumulative_repos` in
`generate_monthly_adoption`) is monotonically non-decreasing across the
months, which are sorted ascending, and its final element equals the
total number of joined records for that industry (for
`generate_monthly_adoption`, whose single series aggregates all
industries, the total number of joined records). -/
theorem C1_cumulative_series_monotone (fu : List FirstUseRow) (pr : List PredRow) :
    List.Sorted Month.le (month_index (merge fu pr)) ∧
    (∀ data, generate_cumulative_data fu pr = Except.ok data →
      ∀ s ∈ data.industries,
        List.Sorted (· ≤ ·) s.values ∧ s.values ≠ [] ∧
        s.values.getLastD 0
          = ((merge fu pr).filter fun r => r.predicted_naics == s.code).length) ∧
    (merge fu pr ≠ [] →
      List.Sorted (· ≤ ·)
          ((generate_monthly_adoption fu pr).map MonthlyRow.cumulative_repos) ∧
      ((generate_monthly_adoption fu pr).map MonthlyRow.cumulative_repos).getLast?
        = some (merge fu pr).length) := by
  refine ⟨?_, ?_, ?_⟩
  · show List.Sorted Month.le
      (((merge fu pr).map MergedRow.year_month).dedup.insertionSort Month.le)
    exact List.sorted_insertionSort Month.le _
  · intro data hok s hs
    by_cases hm : merge fu pr = []
    · rw [generate_cumulative_data_empty fu pr hm] at hok
      exact Except.noConfusion hok
    · rw [generate_cumulative_data_ok fu pr hm] at hok
      injection hok with h'
      subst h'
      replace hs : s ∈ ((industry_columns (merge fu pr)).map
          (industry_series (merge fu pr))).insertionSort
            (fun a b => final_value b ≤ final_value a) := hs
      rw [List.mem_insertionSort] at hs
      rcases List.mem_map.mp hs with ⟨col, _, rfl⟩
      refine ⟨cumsum_sorted _, ?_, ?_⟩
      · intro hnil
        replace hnil : cumsum ((month_index (merge fu pr)).map fun m =>
            monthly_count (merge fu pr) m col) = [] := hnil
        have hlen := congrArg List.length hnil
        rw [cumsum_length, List.length_map] at hlen
        exact month_index_ne_nil hm (List.length_eq_zero.mp hlen)
      · show (cumsum ((month_index (merge fu pr)).map fun m =>
            monthly_count (merge fu pr) m col)).getLastD 0
          = ((merge fu pr).filter fun r => r.predicted_naics == col).length
        rw [cumsum_getLastD, sum_monthly_count]
  · intro hm
    have hkey : (generate_monthly_adoption fu pr).map MonthlyRow.cumulative_repos
        = cumsum ((month_index (merge fu pr)).map fun m =>
            ((merge fu pr).filter fun r => r.year_month == m).length) := by
      simp only [generate_monthly_adoption]
      rw [List.map_map]
      exact zip3_map_third _ _ _ (List.length_map _ _).symm (cumsum_length _).symm
    rw [hkey]
    refine ⟨cumsum_sorted _, ?_⟩
    have hne : cumsum ((month_index (merge fu pr)).map fun m =>
        ((merge fu pr).filter fun r => r.year_month == m).length) ≠ [] := by
      intro hnil
      have hlen := congrArg List.length hnil
      rw [cumsum_length, List.length_map] at hlen
      exact month_index_ne_nil hm (List.length_eq_zero.mp hlen)
    rw [getLast?_eq_getLastD hne, cumsum_getLastD, sum_new_repos]

theorem C1_cumulative_series_monotone_witness :
    List.Sorted (· ≤ ·)
        ((generate_monthly_adoption exFU exPR).map MonthlyRow.cumulative_repos) ∧
    ((generate_monthly_adoption exFU exPR).map MonthlyRow.cumulative_repos).getLast?
      = some (merge exFU exPR).length :=
  (C1_cumulative_series_monotone exFU exPR).2.2 (by decide)

/-- C5 as stated is false: in `plot_industry_adoption.main` only
`FileNotFoundError` is caught, so the `TypeError` raised at the plotting
step when an agent's merge is empty propagates and aborts the loop.
Concretely: with the first agent's files present but sharing no
repository identifier, the loop ends in the uncaught `TypeError` — the
remaining agents are never processed — even though the last agent's own
processing succeeds in isolation. -/
theorem C5_counterexample_plot_loop_aborts :
    plot_main exC5Data ["claude", "copilot", "codex"]
        = Except.error (PyError.typeError "no numeric data to plot") ∧
      process_agent (exC5Data "codex")
        = Except.ok [{ nwo := "A", first_use_date := { year := 2024, month := 1, day := 5 },
                       predicted_naics := "54" }] :=
  ⟨rfl, rfl⟩

/-- C5 amended: in `export_web_data`'s driver loop every per-agent
failure (missing input file as well as empty merge) is caught and the
loop continues, producing one output slot per agent in order; in
`plot_industry_adoption`'s loop a missing dataset file is caught and
never aborts the remaining agents (whereas a non-file error, such as the
empty-merge `TypeError`, propagates and aborts them). -/
theorem C5_per_agent_failure_isolation (data : String → AgentData)
    (agents : List String) (a : String)
    (h : (data a).first_use = none ∨ (data a).predictions = none) :
    (export_main data agents).map Prod.fst = agents ∧
    plot_main data (a :: agents) = plot_main data agents := by
  constructor
  · induction agents with
    | nil => rfl
    | cons b rest ih => simp [export_main, ih]
  · rcases h with h | h
    · simp [plot_main, process_agent, h]
    · cases hfu : (data a).first_use with
      | none => simp [plot_main, process_agent, hfu]
      | some fu => simp [plot_main, process_agent, hfu, h]

theorem C5_per_agent_failure_isolation_witness :
    (export_main (fun _ => { first_use := none, predictions := none })
        ["copilot", "codex"]).map Prod.fst = ["copilot", "codex"] ∧
    plot_main (fun _ => { first_use := none, predictions := none })
        ("claude" :: ["copilot", "codex"])
      = plot_main (fun _ => { first_use := none, predictions := none })
          ["copilot", "codex"] :=
  C5_per_agent_failure_isolation _ ["copilot", "codex"] "claude" (Or.inl rfl)

/-- C9: in `plot_stacked_area`'s chart data with parameter `top_n`, every
kept industry's total is at least every merged industry's total, the
plotted series are exactly the top industries followed by a single
`"Other"` series when any industries remain, and at every month the sum
over all plotted series equals the per-month total of the input table. -/
theorem C9_top_n_other_partition (df : List MergedRow) (top_n : Nat) :
    (∀ c ∈ top_industries df top_n, ∀ d ∈ other_columns df top_n,
        industry_total df d ≤ industry_total df c) ∧
    ((plot_stacked_area_series df top_n).map Prod.fst
        = top_industries df top_n
            ++ (if other_columns df top_n = [] then [] else ["Other"])) ∧
    (∀ i, i < (month_index df).length →
        ((plot_stacked_area_series df top_n).map fun s => s.2.getD i 0).sum
          = (df.filter fun r =>
              r.year_month == (month_index df).getD i { year := 0, month := 0 }).length) := by
  have hsorted : List.Sorted (fun a b : String => industry_total df b ≤ industry_total df a)
      ((industry_columns df).insertionSort
        fun a b => industry_total df b ≤ industry_total df a) := by
    haveI : IsTotal String fun a b => industry_total df b ≤ industry_total df a :=
      ⟨fun a b => Nat.le_total _ _⟩
    haveI : IsTrans String fun a b => industry_total df b ≤ industry_total df a :=
      ⟨fun _ _ _ hab hbc => le_trans hbc hab⟩
    exact List.sorted_insertionSort _ _
  have hplots : plot_stacked_area_series df top_n
      = (if (other_columns df top_n).isEmpty then
          (top_industries df top_n).map fun c =>
            (c, (month_index df).map fun m => monthly_count df m c)
        else ((top_industries df top_n).map fun c =>
            (c, (month_index df).map fun m => monthly_count df m c))
          ++ [("Other", (month_index df).map fun m =>
                ((other_columns df top_n).map fun c => monthly_count df m c).sum)]) := rfl
  refine ⟨?_, ?_, ?_⟩
  · intro c hc d hd
    replace hd : d ∈ (industry_columns df).filter
        (fun c => decide (c ∉ top_industries df top_n)) := hd
    rcases List.mem_filter.mp hd with ⟨hdcols, hdec⟩
    have hdnot : d ∉ top_industries df top_n := of_decide_eq_true hdec
    have hdsorted : d ∈ (industry_columns df).insertionSort
        (fun a b => industry_total df b ≤ industry_total df a) :=
      (List.mem_insertionSort _).mpr hdcols
    have hpair := hsorted
    rw [← List.take_append_drop top_n ((industry_columns df).insertionSort
      fun a b => industry_total df b ≤ industry_total df a)] at hpair hdsorted
    rcases List.mem_append.mp hdsorted with hmem | hmem
    · exact absurd hmem hdnot
    · exact (List.pairwise_append.mp hpair).2.2 c hc d hmem
  · rw [hplots]
    have hfst : ∀ c ∈ top_industries df top_n,
        (Prod.fst ∘ fun c : String =>
          (c, (month_index df).map fun m => monthly_count df m c)) c = c :=
      fun c _ => rfl
    by_cases ho : other_columns df top_n = []
    · rw [if_pos (List.isEmpty_iff.mpr ho), if_pos ho, List.map_map, List.append_nil,
        List.map_congr_left hfst, List.map_id']
    · rw [if_neg (fun hcontr => ho (List.isEmpty_iff.mp hcontr)), if_neg ho,
        List.map_append, List.map_map, List.map_congr_left hfst, List.map_id']
      rfl
  · intro i hi
    rw [hplots]
    have hmap : ∀ c ∈ top_industries df top_n,
        ((fun s : String × List Nat => s.2.getD i 0) ∘ fun c =>
          (c, (month_index df).map fun m => monthly_count df m c)) c
          = monthly_count df ((month_index df).getD i { year := 0, month := 0 }) c := by
      intro c _
      show ((month_index df).map fun m => monthly_count df m c).getD i 0
        = monthly_count df ((month_index df).getD i { year := 0, month := 0 }) c
      exact getD_map_lt _ _ i { year := 0, month := 0 } 0 hi
    by_cases ho : other_columns df top_n = []
    · rw [if_pos (List.isEmpty_iff.mpr ho), List.map_map, List.map_congr_left hmap]
      have hpart := sum_top_other df top_n
        (monthly_count df ((month_index df).getD i { year := 0, month := 0 }))
      rw [ho] at hpart
      simp only [List.map_nil, List.sum_nil, Nat.add_zero] at hpart
      rw [hpart]
      exact sum_monthly_count_industries df _
    · rw [if_neg (fun hcontr => ho (List.isEmpty_iff.mp hcontr)),
        List.map_append, List.sum_append, List.map_map, List.map_congr_left hmap]
      have hother : (([("Other", (month_index df).map fun m =>
          ((other_columns df top_n).map fun c => monthly_count df m c).sum)]).map
            fun s : String × List Nat => s.2.getD i 0).sum
          = ((other_columns df top_n).map fun c =>
              monthly_count df ((month_index df).getD i { year := 0, month := 0 }) c).sum := by
        simp only [List.map_cons, List.map_nil, List.sum_cons, List.sum_nil, Nat.add_zero]
        exact getD_map_lt _ _ i { year := 0, month := 0 } 0 hi
      rw [hother, sum_top_other]
      exact sum_monthly_count_industries df _

theorem C9_top_n_other_partition_witness :
    industry_total (merge exFU exPR) "62" ≤ industry_total (merge exFU exPR) "54" ∧
    (plot_stacked_area_series (merge exFU exPR) 1).map Prod.fst = ["54", "Other"] := by
  have h := C9_top_n_other_partition (merge exFU exPR) 1
  refine ⟨h.1 "54" (by decide) "62" (by decide), ?_⟩
  have hb := h.2.1
  rw [if_neg (by decide)] at hb
  rw [hb]
  decide

end AIAdoption
